import Mathlib

/-!
Verification of the dyne dataflow engine (src/dyne/base.py, src/dyne/pipeline.py)
against its natural-language specification.

The embedding models the Python 2 source shallowly:
dicts become association lists, exceptions become an explicit error type,
generators become lists, and coroutine resumption becomes synchronous
recursion producing an event trace.
-/

namespace Dyne

/-- Model of the Python values flowing through the engine: None, bools,
ints, strings, numpy arrays (carried as integer matrices, only their type
matters to the verifiers), and dicts as association lists. -/
inductive PyObj where
  | pynone : PyObj
  | pybool (b : Bool) : PyObj
  | pyint (n : Int) : PyObj
  | pystr (s : String) : PyObj
  | ndarray (data : List (List Int)) : PyObj
  | dict (kvs : List (String × PyObj)) : PyObj

/-- Python truthiness: None, False, 0, the empty string and the empty dict
are falsy; an ndarray object is truthy for the purposes of the engine
(the transforms return either None or a non-empty packet dict). -/
def truthy : PyObj → Bool
  | .pynone => false
  | .pybool b => b
  | .pyint n => n != 0
  | .pystr s => s ≠ ""
  | .ndarray _ => true
  | .dict kvs => !kvs.isEmpty

/-- Exceptions raised by the engine, one constructor per Python exception
class that the modelled code can raise.  PipeLinkError and PipeTypeError
are the classes of src/dyne/except_defs.py. -/
inductive PyErr where
  | typeError (msg : String) : PyErr
  | valueError (msg : String) : PyErr
  | keyError (k : String) : PyErr
  | indexError : PyErr
  | attributeError (name : String) : PyErr
  | pipeLinkError (msg : String) : PyErr
  | pipeTypeError (msg : String) : PyErr
  | notImplementedError (msg : String) : PyErr
deriving DecidableEq

/-- Is the error an instance of except_defs.PipeLinkError? -/
def isPipeLinkErr : PyErr → Bool
  | .pipeLinkError _ => true
  | _ => false

/-- The list of top-level keys of a packet dict
(Python signal_packet.keys()). -/
def pyKeys : PyObj → List String
  | .dict kvs => kvs.map Prod.fst
  | _ => []

/-- Dict subscription p[k]: KeyError when the key is absent, TypeError when
the object is not a dict. -/
def subscript (p : PyObj) (k : String) : Except PyErr PyObj :=
  match p with
  | .dict kvs =>
    match kvs.lookup k with
    | some v => .ok v
    | none => .error (.keyError k)
  | _ => .error (.typeError "object is not subscriptable")

/-- Modelled from the spec: errors.check_type of the repository errors
module (imported by base.py but absent from src/) raises a structured
TypeError when the object is not of the required type.  This instance
checks for dict. -/
def check_type_dict (p : PyObj) : Except PyErr Unit :=
  match p with
  | .dict _ => .ok ()
  | _ => .error (.typeError "expected type dict")

/-- Modelled from the spec: errors.check_type instance checking for
numpy.ndarray. -/
def check_type_ndarray (p : PyObj) : Except PyErr Unit :=
  match p with
  | .ndarray _ => .ok ()
  | _ => .error (.typeError "expected type ndarray")

/-- Modelled from the spec: errors.check_type instance checking for str. -/
def check_type_str (p : PyObj) : Except PyErr Unit :=
  match p with
  | .pystr _ => .ok ()
  | _ => .error (.typeError "expected type str")

/-- Modelled from the spec: errors.check_has_key of the missing errors
module raises a structured error identifying the missing field when the
key is absent, and a TypeError when the object is not a dict at all. -/
def check_has_key (p : PyObj) (k : String) : Except PyErr Unit :=
  match p with
  | .dict kvs =>
    match kvs.lookup k with
    | some _ => .ok ()
    | none => .error (.keyError k)
  | _ => .error (.typeError "expected type dict")

/-- signal_packet.keys()[0]: IndexError on an empty dict, AttributeError
on a non-dict (no keys method). -/
def headKey (p : PyObj) : Except PyErr String :=
  match p with
  | .dict kvs =>
    match kvs with
    | [] => .error .indexError
    | (k, _) :: _ => .ok k
  | _ => .error (.attributeError "keys")

/-- LoggerPipe._verify_signal_packet (base.py lines 205-210): checks the
packet is a dict and rejects it only when it has more than one top-level
key. -/
def loggerVerify (p : PyObj) : Except PyErr Unit := do
  check_type_dict p
  if 1 < (pyKeys p).length then
    throw (.valueError
      "signal_packet base-level should contain only the pipe hash identifier as key")
  return ()

/-- InterfacePipe._verify_signal_packet (base.py lines 249-272): dict
check, more-than-one-key rejection, then structural checks of the single
payload under the first key. -/
def interfaceVerify (p : PyObj) : Except PyErr Unit := do
  check_type_dict p
  if 1 < (pyKeys p).length then
    throw (.valueError
      "signal_packet base-level should contain only the pipe hash identifier as key")
  let hkey ← headKey p
  let payload ← subscript p hkey
  check_has_key payload "data"
  check_has_key payload "meta"
  let meta ← subscript payload "meta"
  check_has_key meta "ax_0"
  check_has_key meta "ax_1"
  let ax0 ← subscript meta "ax_0"
  let ax1 ← subscript meta "ax_1"
  check_has_key ax0 "label"
  check_has_key ax0 "index"
  check_has_key ax1 "label"
  check_has_key ax1 "index"
  check_type_ndarray (← subscript payload "data")
  check_type_str (← subscript ax0 "label")
  check_type_ndarray (← subscript ax0 "index")
  check_type_str (← subscript ax1 "label")
  check_type_ndarray (← subscript ax1 "index")

/-! ## Execution model: coroutine pipeline as a synchronous tree walk

A linked pipeline is a tree: each node holds the pipe identity hash, its
transform (_pipe_as_flow) and verifier (_verify_signal_packet), and the
downstream handles created by link() in declared order.  Resuming a
coroutine with send() is a synchronous call, so the run is a depth-first
recursion; we record the observable events (a handle resumed with a
packet, a handle closed) in order. -/

/-- Observable events of a run: a pipe coroutine resumed with a packet
(downstream_pipe.send), or a pipe coroutine closed
(downstream_pipe.close). -/
inductive Ev where
  | send (pipe : String) (packet : PyObj) : Ev
  | closed (pipe : String) : Ev

/-- The pipe of an event. -/
def Ev.pipe : Ev → String
  | .send h _ => h
  | .closed h => h

/-- Is the event a close delivery? -/
def Ev.isClosed : Ev → Bool
  | .send _ _ => false
  | .closed _ => true

mutual
/-- A linked flow pipe: identity hash, transform, verifier, downstream
handles in declared order. -/
inductive PTree where
  | mk (hash : String) (transform : PyObj → PyObj)
       (verify : PyObj → Except PyErr Unit) (children : PForest) : PTree
/-- The ordered downstream handles of a pipe. -/
inductive PForest where
  | nil : PForest
  | cons (t : PTree) (ts : PForest) : PForest
end

/-- The identity hash of the root pipe of a tree. -/
def PTree.hash : PTree → String
  | .mk h _ _ _ => h

/-- The downstream handles of a tree root. -/
def PTree.children : PTree → PForest
  | .mk _ _ _ cs => cs

mutual
/-- All pipe hashes in a tree, root first. -/
def treeHashes : PTree → List String
  | .mk h _ _ cs => h :: forestHashes cs
/-- All pipe hashes in a forest, in order. -/
def forestHashes : PForest → List String
  | .nil => []
  | .cons t ts => treeHashes t ++ forestHashes ts
end

/-- The forest as a list of trees. -/
def forestToList : PForest → List PTree
  | .nil => []
  | .cons t ts => t :: forestToList ts

/-- copy.deepcopy at base.py line 166.  PyObj values are immutable in this
embedding, so the copy is the value itself; the aliasing content of
deepcopy is modelled separately by the store-based model below. -/
def deepcopy (p : PyObj) : PyObj := p

/-- BasePipe._tag_signal_packet: wrap a payload in a fresh single-key
envelope keyed by the pipe identity hash. -/
def tagPacket (hash : String) (payload : PyObj) : PyObj :=
  .dict [(hash, payload)]

/-- BasePipe._retag_signal_packet: new envelope keyed by the own hash,
holding the payload found under the first key of the inbound envelope.
IndexError on an empty dict (keys()[0]), AttributeError on a non-dict. -/
def retagPacket (hash : String) (p : PyObj) : Except PyErr PyObj :=
  match p with
  | .dict kvs =>
    match kvs with
    | [] => .error .indexError
    | (_, v) :: _ => .ok (.dict [(hash, v)])
  | _ => .error (.attributeError "keys")

mutual
/-- One resumption of BasePipe.apply_pipe_as_flow (base.py lines 158-179)
for a linked pipe: record the delivery, apply the transform to a deep copy
of the inbound packet; when the result is truthy, retag and verify it
(either step may raise); then send the result - truthy or not, exactly as
in the source, where the forwarding loop sits outside the truthiness
guard - to every downstream handle in order.  Returns the events that
happened and the exception that aborted the branch, if any. -/
def flowSend : PTree → PyObj → List Ev × Option PyErr
  | .mk h f vf cs, p =>
    let q0 := f (deepcopy p)
    if truthy q0 then
      match retagPacket h q0 with
      | .error e => ([.send h p], some e)
      | .ok q =>
        match vf q with
        | .error e => ([.send h p], some e)
        | .ok _ =>
          match sendForest cs q with
          | (evs, err) => (.send h p :: evs, err)
    else
      match sendForest cs q0 with
      | (evs, err) => (.send h p :: evs, err)
/-- The forwarding loop (for downstream_pipe in self.downstream_pipe_flow:
downstream_pipe.send(...)): downstream handles invoked in declared order;
an exception in one branch aborts the loop before later siblings run. -/
def sendForest : PForest → PyObj → List Ev × Option PyErr
  | .nil, _ => ([], none)
  | .cons c cs, q =>
    match flowSend c q with
    | (evs, some e) => (evs, some e)
    | (evs, none) =>
      match sendForest cs q with
      | (evs2, err2) => (evs ++ evs2, err2)
end

mutual
/-- Closing a flow coroutine (GeneratorExit branch, base.py lines 161-164
and 181-182): the pipe observes the close, then closes each downstream
handle in order. -/
def closeTree : PTree → List Ev
  | .mk h _ _ cs => .closed h :: closeForest cs
/-- The closing loop over downstream handles. -/
def closeForest : PForest → List Ev
  | .nil => []
  | .cons c cs => closeTree c ++ closeForest cs
end

/-- BasePipe.apply_pipe_as_source (base.py lines 113-146) for a source
with identity hash h, verifier vf, link state linked (none when link() was
never called, so the downstream_pipe_flow attribute is unset) and a
production generator modelled as the list of payloads it yields.  Per
payload: tag, verify, check the link attribute (PipeLinkError when unset),
send to every downstream handle.  On exhaustion: close every downstream
handle once - reading the link attribute outside any try block, so an
unlinked exhausted source raises a plain AttributeError there. -/
def sourceRun (h : String) (vf : PyObj → Except PyErr Unit)
    (linked : Option PForest) : List PyObj → List Ev × Option PyErr
  | [] =>
    match linked with
    | none => ([], some (.attributeError "downstream_pipe_flow"))
    | some cs => (closeForest cs, none)
  | p :: ps =>
    let t := tagPacket h p
    match vf t with
    | .error e => ([], some e)
    | .ok _ =>
      match linked with
      | none =>
        ([], some (.pipeLinkError
          "must link to downstream pipe using link() method"))
      | some cs =>
        match sendForest cs t with
        | (evs, some e) => (evs, some e)
        | (evs, none) =>
          match sourceRun h vf linked ps with
          | (evs2, err2) => (evs ++ evs2, err2)

/-- One resumption of apply_pipe_as_flow for a pipe on which link() was
never called: transform, conditional retag and verify, then the attribute
check raises PipeLinkError (lines 171-176) before anything could be
forwarded. -/
def flowResumeUnlinked (h : String) (f : PyObj → PyObj)
    (vf : PyObj → Except PyErr Unit) (p : PyObj) : List Ev × Option PyErr :=
  let q0 := f (deepcopy p)
  if truthy q0 then
    match retagPacket h q0 with
    | .error e => ([.send h p], some e)
    | .ok q =>
      match vf q with
      | .error e => ([.send h p], some e)
      | .ok _ =>
        ([.send h p], some (.pipeLinkError
          "must link to downstream pipe using link() method"))
  else
    ([.send h p], some (.pipeLinkError
      "must link to downstream pipe using link() method"))

/-- Number of close deliveries observed by pipe g in a trace. -/
def countClosed (g : String) (evs : List Ev) : Nat :=
  evs.countP (fun e => e.isClosed && (e.pipe == g))

/-- The PipeLinkError message raised by the driving loops of an unlinked
pipe (base.py lines 136-138 and 174-176). -/
def linkErrMsg : String := "must link to downstream pipe using link() method"

/-- A verifier that accepts every packet. -/
def alwaysOkVerify : PyObj → Except PyErr Unit := fun _ => .ok ()

/-! ## Identity hash model (BasePipe.to_JSON / BasePipe.to_hash)

Constructor parameter values are the JSON-serializable Python values the
pipes of this repository accept (None, bool, int, str, list, tuple;
see for example adjacency/coherence.py, where cf may be a tuple or a
list).  to_JSON serializes the parameter dict with sort_keys=True and the
Python 2 json.dumps conventions; to_hash feeds the formatted string
module.class: json to a digest function, which the model abstracts as a
parameter H standing for hashlib.sha224(...).hexdigest(). -/

mutual
/-- A Python parameter value accepted by pipe constructors. -/
inductive PyVal where
  | vNone : PyVal
  | vBool (b : Bool) : PyVal
  | vInt (n : Int) : PyVal
  | vStr (s : String) : PyVal
  | vList (xs : PyValList) : PyVal
  | vTuple (xs : PyValList) : PyVal
/-- A list of Python parameter values. -/
inductive PyValList where
  | nil : PyValList
  | cons (x : PyVal) (xs : PyValList) : PyValList
end

/-- JSON string escaping of a single character (quote and backslash). -/
def escChar (c : Char) : List Char :=
  if c = '"' ∨ c = '\\' then ['\\', c] else [c]

/-- JSON escaping of a string body. -/
def escapeStr (s : String) : String :=
  ⟨s.data.foldr (fun c acc => escChar c ++ acc) []⟩

/-- A JSON string literal. -/
def strQuote (s : String) : String := "\"" ++ escapeStr s ++ "\""

mutual
/-- Python 2 json.dumps of a single value.  Tuples and lists are both
serialized as JSON arrays, exactly as json.dumps does. -/
def serVal : PyVal → String
  | .vNone => "null"
  | .vBool b => if b then "true" else "false"
  | .vInt n => toString n
  | .vStr s => strQuote s
  | .vList xs => "[" ++ serElems xs ++ "]"
  | .vTuple xs => "[" ++ serElems xs ++ "]"
/-- Comma-separated serialization of array elements. -/
def serElems : PyValList → String
  | .nil => ""
  | .cons x .nil => serVal x
  | .cons x xs => serVal x ++ ", " ++ serElems xs
end

/-- A pipe instance as seen by to_JSON and to_hash: the module path and
class name of the implementing class and the constructor parameters
collected by _get_param_var from the instance dict. -/
structure PipeInst where
  module : String
  cls : String
  params : List (String × PyVal)

/-- Insertion into a key-sorted association list. -/
def insertSorted (x : String × PyVal) :
    List (String × PyVal) → List (String × PyVal)
  | [] => [x]
  | y :: ys => if x.1 ≤ y.1 then x :: y :: ys else y :: insertSorted x ys

/-- Key-sorting of the parameter dict (json.dumps sort_keys=True). -/
def sortParams (ps : List (String × PyVal)) : List (String × PyVal) :=
  ps.foldr insertSorted []

/-- One serialized dict entry, key: value. -/
def serEntry (kv : String × PyVal) : String :=
  strQuote kv.1 ++ ": " ++ serVal kv.2

/-- Separator-joined concatenation, as the json.dumps item separator. -/
def joinSep (sep : String) : List String → String
  | [] => ""
  | [x] => x
  | x :: xs => x ++ sep ++ joinSep sep xs

/-- BasePipe.to_JSON (base.py lines 57-63): the parameter dict serialized
with sorted keys. -/
def to_JSON (inst : PipeInst) : String :=
  "\x7b" ++ joinSep ", " ((sortParams inst.params).map serEntry) ++ "\x7d"

/-- The string module.class: json formatted by to_hash
(base.py lines 67-70). -/
def fmt_str (inst : PipeInst) : String :=
  inst.module ++ "." ++ inst.cls ++ ": " ++ to_JSON inst

/-- BasePipe.to_hash (base.py lines 65-71) with the digest function
abstracted: the source applies hashlib.sha224 to fmt_str. -/
def to_hashWith (H : String → String) (inst : PipeInst) : String :=
  H (fmt_str inst)

/-- The two-element array 8, 12 used by the collision counterexample. -/
def cfElems : PyValList := .cons (.vInt 8) (.cons (.vInt 12) .nil)

/-- An instance of a pipe class whose single parameter cf was passed the
tuple (8, 12).  Tuple-or-list parameters are accepted by pipes of this
repository, see the assert in adjacency/coherence.py on cf. -/
def instTupleCf : PipeInst :=
  ⟨"user_pipes", "BandPipe", [("cf", .vTuple cfElems)]⟩

/-- The same pipe class with cf passed the list 8, 12 instead. -/
def instListCf : PipeInst :=
  ⟨"user_pipes", "BandPipe", [("cf", .vList cfElems)]⟩

/-! ## Link model (BasePipe.link, base.py lines 94-111)

The class hierarchy of base.py and the concrete pipes of the repository,
with isinstance modelled by the ancestor chain and get_valid_link by
Python method resolution: the role classes of base.py define it,
LoggerPipe does not (it defines get_valid_pipe instead, base.py line 212),
so logger instances inherit the raising BasePipe.get_valid_link. -/

/-- The pipe classes of the repository. -/
inductive PClass where
  | basePipe | interfacePipe | preprocPipe | adjacencyPipe
  | globalTopoPipe | nodeTopoPipe | edgeTopoPipe | loggerPipe
  | mvarNormalNoise | console | saveHDF
  | ellipticFilter | commonAvgRef | preWhiten
deriving DecidableEq

/-- The ancestor chain of each class, the class itself first. -/
def ancestors : PClass → List PClass
  | .basePipe => [.basePipe]
  | .interfacePipe => [.interfacePipe, .basePipe]
  | .preprocPipe => [.preprocPipe, .basePipe]
  | .adjacencyPipe => [.adjacencyPipe, .basePipe]
  | .globalTopoPipe => [.globalTopoPipe, .basePipe]
  | .nodeTopoPipe => [.nodeTopoPipe, .basePipe]
  | .edgeTopoPipe => [.edgeTopoPipe, .basePipe]
  | .loggerPipe => [.loggerPipe, .basePipe]
  | .mvarNormalNoise => [.mvarNormalNoise, .interfacePipe, .basePipe]
  | .console => [.console, .loggerPipe, .basePipe]
  | .saveHDF => [.saveHDF, .loggerPipe, .basePipe]
  | .ellipticFilter => [.ellipticFilter, .preprocPipe, .basePipe]
  | .commonAvgRef => [.commonAvgRef, .preprocPipe, .basePipe]
  | .preWhiten => [.preWhiten, .preprocPipe, .basePipe]

/-- Python isinstance(obj, target) for pipe objects. -/
def isinst (c target : PClass) : Bool :=
  (ancestors c).contains target

/-- get_valid_link resolved along the hierarchy.  InterfacePipe and
PreprocPipe allow logger, preproc and adjacency downstreams; AdjacencyPipe
allows the three topo roles and logger; the topo roles allow logger only.
LoggerPipe never overrides it (its list lives in the dead method
get_valid_pipe), so logger classes hit the raising BasePipe
implementation. -/
def get_valid_link : PClass → Except PyErr (List PClass)
  | .interfacePipe | .mvarNormalNoise => .ok [.loggerPipe, .preprocPipe, .adjacencyPipe]
  | .preprocPipe | .ellipticFilter | .commonAvgRef | .preWhiten =>
      .ok [.loggerPipe, .preprocPipe, .adjacencyPipe]
  | .adjacencyPipe =>
      .ok [.globalTopoPipe, .nodeTopoPipe, .edgeTopoPipe, .loggerPipe]
  | .globalTopoPipe | .nodeTopoPipe | .edgeTopoPipe => .ok [.loggerPipe]
  | .basePipe | .loggerPipe | .console | .saveHDF =>
      .error (.notImplementedError
        "Must return list of pipe types the current pipe type can connect to")

/-- Which classes implement _pipe_as_flow (the flow coroutine body checks
for it before the first yield, so link() fails when it is missing). -/
def has_pipe_as_flow : PClass → Bool
  | .console | .saveHDF | .ellipticFilter | .commonAvgRef | .preWhiten => true
  | _ => false

/-- downstream_pipe.apply_pipe_as_flow() advanced to its first yield by
the coroutine decorator: raises NotImplementedError when _pipe_as_flow is
missing, else yields the started handle (identified by its class here). -/
def startFlowHandle (c : PClass) : Except PyErr PClass :=
  if has_pipe_as_flow c then .ok c
  else .error (.notImplementedError "does not have _pipe_as_flow implemented")

/-- BasePipe.link (base.py lines 94-111): falsy entries are skipped;
each truthy downstream is isinstance-checked against get_valid_link();
on failure PipeLinkError; on success the started flow handle is appended.
Returns the handles stored so far and the exception, if one was raised. -/
def linkRun (up : PClass) : List (Option PClass) → List PClass × Option PyErr
  | [] => ([], none)
  | none :: rest => linkRun up rest
  | some d :: rest =>
    match get_valid_link up with
    | .error e => ([], some e)
    | .ok valid =>
      if valid.any (fun v => isinst d v) then
        match startFlowHandle d with
        | .error e => ([], some e)
        | .ok hdl =>
          match linkRun up rest with
          | (hs, err) => (hdl :: hs, err)
      else
        ([], some (.pipeLinkError
          "must be one of the valid downstream pipe types"))

/-! ## Store model for deepcopy isolation (base.py line 166)

An explicit heap of payload cells; a packet envelope is a list of fields
pointing at cells.  Each branch resumption first deep-copies the inbound
packet into fresh cells and then runs the branch handler, which may
mutate, in place, only cells reachable from its own argument. -/

/-- The heap of payload cells. -/
structure HStore where
  cells : List PyObj

/-- A packet envelope as fields referencing heap cells. -/
abbrev PacketRef := List (String × Nat)

/-- Read a heap cell. -/
def readCell (s : HStore) (a : Nat) : PyObj := s.cells.getD a .pynone

/-- Allocate a fresh cell holding v, returning its address. -/
def allocCell (s : HStore) (v : PyObj) : HStore × Nat :=
  (⟨s.cells ++ [v]⟩, s.cells.length)

/-- copy.deepcopy of a packet: a fresh cell per field, holding a copy of
the referenced value, so the copy shares no cell with the original. -/
def deepcopyPkt : HStore → PacketRef → HStore × PacketRef
  | s, [] => (s, [])
  | s, (k, a) :: rest =>
    match allocCell s (readCell s a) with
    | (s1, b) =>
      match deepcopyPkt s1 rest with
      | (s2, prest) => (s2, (k, b) :: prest)

/-- A branch handler only mutates cells reachable from its packet
argument, and mutation never changes the heap size. -/
def MutatesOnlyArg (hm : PacketRef → HStore → HStore) : Prop :=
  ∀ (q : PacketRef) (s : HStore),
    (∀ a, a ∉ q.map Prod.snd → readCell (hm q s) a = readCell s a) ∧
    (hm q s).cells.length = s.cells.length

/-- One downstream branch resumption: deep-copy the inbound packet
(base.py line 166), then run the branch handler on the copy. -/
def branchResume (hm : PacketRef → HStore → HStore) (s : HStore)
    (p : PacketRef) : HStore :=
  match deepcopyPkt s p with
  | (s1, pcopy) => hm pcopy s1

/-- The fan-out loop: every downstream branch is handed the same inbound
packet reference, in declared order. -/
def fanoutHeap (hms : List (PacketRef → HStore → HStore)) (s : HStore)
    (p : PacketRef) : HStore :=
  hms.foldl (fun st hm => branchResume hm st p) s

/-! ## Orchestrator model (Pipeline, src/dyne/pipeline.py)

The topology document is a mapping from an upstream pipe name to the
list of its downstream names; self.pipes maps every declared name to its
instance and the name None to the Python None terminal marker, modelled
here as a total map into Option PipeInst. -/

/-- One entry of the lineage log (pipeline.py lines 125-132). -/
structure LineageRecord where
  date : String
  pipe_name : String
  pipe_class : String
  pipe_param : String
  upstream_hash : String
  downstream_hash : String

/-- The record written for the declared edge from upstream instance u to
the downstream named v with instance d: link date, downstream name, the
concatenated module and class name of the downstream, its parameter JSON,
and the two endpoint identity hashes. -/
def mkRecord (H : String → String) (date : String) (v : String)
    (u d : PipeInst) : LineageRecord :=
  ⟨date, v, d.module ++ d.cls, to_JSON d, to_hashWith H u, to_hashWith H d⟩

/-- The inner loop of the log build (pipeline.py lines 122-133): one
record per downstream name whose instance is not None, in order. -/
def edgeRecords (H : String → String) (date : String)
    (pipes : String → Option PipeInst) (u : PipeInst) :
    List String → List LineageRecord
  | [] => []
  | v :: rest =>
    match pipes v with
    | none => edgeRecords H date pipes u rest
    | some d => mkRecord H date v u d :: edgeRecords H date pipes u rest

/-- The outer loop of the log build over the topology entries.  Topology
keys resolve to declared instances in any configuration the orchestrator
accepts; an unresolvable upstream would crash the build in the source,
and is excluded by the hypotheses of the theorems below. -/
def buildLog (H : String → String) (date : String) :
    List (String × List String) → (String → Option PipeInst) →
    List LineageRecord
  | [], _ => []
  | (us, vs) :: rest, pipes =>
    (match pipes us with
     | some u => edgeRecords H date pipes u vs
     | none => []) ++ buildLog H date rest pipes

/-- The declared edges: pairs of an upstream name and a downstream name
whose instance is not the None terminal marker. -/
def declaredEdges (topo : List (String × List String))
    (pipes : String → Option PipeInst) : List (String × String) :=
  (topo.map (fun e =>
    (e.2.filter (fun v => (pipes v).isSome)).map (fun v => (e.1, v)))).flatten

/-- A placeholder instance for total lookups; never reached under the
resolution hypotheses. -/
def defaultInst : PipeInst := ⟨"", "", []⟩

/-- Events of Pipeline.start_pipeline: the source-run events, then the
persistence of the log. -/
inductive RunEv where
  | src (e : Ev) : RunEv
  | persist (log : List LineageRecord) : RunEv

/-- Pipeline.start_pipeline (pipeline.py lines 137-139): run the source
pipe; when it returns normally, write the accumulated log to the
configured path (to_csv), once.  An exception from the source loop
propagates and the log is not written. -/
def startPipeline : List Ev × Option PyErr → List LineageRecord → List RunEv
  | (evs, some _), _ => evs.map .src
  | (evs, none), log => evs.map .src ++ [.persist log]

/-- Number of log-persistence events in a run trace. -/
def countPersist (t : List RunEv) : Nat :=
  t.countP (fun e => match e with | .persist _ => true | _ => false)

/-! ## Concrete fixtures used by witnesses and counterexamples. -/

/-- A sink whose transform returns None (like a logger pipe body). -/
def droppingSink : PTree := .mk "S" (fun _ => .pynone) alwaysOkVerify .nil

/-- A linked flow pipe whose transform always yields None, with one
downstream sink handle. -/
def droppingNode : PTree :=
  .mk "A" (fun _ => .pynone) alwaysOkVerify (.cons droppingSink .nil)

/-- A sample single-key inbound packet. -/
def samplePacket : PyObj := .dict [("upstream", .ndarray [[1, 2]])]

/-- Terminal sink pipe A of the two-sink fixture. -/
def sinkA : PTree := .mk "A" (fun _ => .pynone) alwaysOkVerify .nil

/-- Terminal sink pipe B of the two-sink fixture. -/
def sinkB : PTree := .mk "B" (fun _ => .pynone) alwaysOkVerify .nil

/-- A source linked to the two sinks A then B. -/
def twoSinks : PForest := .cons sinkA (.cons sinkB .nil)

/-- First produced payload of the fixture. -/
def payload1 : PyObj := .ndarray [[1]]

/-- Second produced payload of the fixture. -/
def payload2 : PyObj := .ndarray [[2]]

/-- A two-pipe instance table: a source and a console sink. -/
def samplePipes : String → Option PipeInst := fun n =>
  if n = "rand_src" then some ⟨"interface.randgen", "MvarNormalNoise",
    [("n_node", .vInt 4), ("n_sample", .vInt 100),
     ("win_width", .vInt 10), ("win_shift", .vInt 5)]⟩
  else if n = "console_log" then some ⟨"logger.console", "Console",
    [("description", .vStr "demo")]⟩
  else none

/-- A sample topology: the source feeds the console sink, the sink
terminates at the None marker. -/
def sampleTopo : List (String × List String) :=
  [("rand_src", ["console_log"]), ("console_log", ["None"])]

/-- A branch handler that mutates nothing, for the isolation witness. -/
def idHandler : PacketRef → HStore → HStore := fun _ s => s

/-- A one-cell heap holding the integer 7. -/
def wStore : HStore := ⟨[.pyint 7]⟩

/-- A packet whose data field references cell 0. -/
def wPkt : PacketRef := [("data", 0)]

/-- A one-parameter instance with alpha = 1, for the hash witnesses. -/
def wAlpha1 : PipeInst := ⟨"user_pipes", "AlphaPipe", [("alpha", .vInt 1)]⟩

/-- The same class with alpha = 2. -/
def wAlpha2 : PipeInst := ⟨"user_pipes", "AlphaPipe", [("alpha", .vInt 2)]⟩

mutual
/-- The packet-forwarding phase never delivers a close signal. -/
theorem flowSend_countClosed : ∀ (g : String) (t : PTree) (p : PyObj),
    countClosed g (flowSend t p).1 = 0
  | g, .mk h f vf cs, p => by
    have hsf := sendForest_countClosed g cs
    simp only [flowSend]
    split
    · cases hr : retagPacket h (f (deepcopy p)) with
      | error e => simp [hr, countClosed, Ev.isClosed]
      | ok q =>
        cases hv : vf q with
        | error e => simp [hr, hv, countClosed, Ev.isClosed]
        | ok u =>
          have := hsf q
          simp [hv, countClosed, Ev.isClosed] at this ⊢
          exact this
    · have := hsf (f (deepcopy p))
      simp [countClosed, Ev.isClosed] at this ⊢
      exact this
/-- The forwarding loop over a forest never delivers a close signal. -/
theorem sendForest_countClosed : ∀ (g : String) (cs : PForest) (q : PyObj),
    countClosed g (sendForest cs q).1 = 0
  | g, .nil, q => by simp [sendForest, countClosed]
  | g, .cons c cs, q => by
    have h1 := flowSend_countClosed g c q
    have h2 := sendForest_countClosed g cs q
    simp only [sendForest]
    cases hf : flowSend c q with
    | mk evs err =>
      rw [hf] at h1
      cases err with
      | none =>
        simp only [countClosed, List.countP_append] at h1 h2 ⊢
        omega
      | some e => exact h1
end

mutual
/-- Closing a tree delivers one close per occurrence of a pipe hash. -/
theorem closeTree_countClosed : ∀ (g : String) (t : PTree),
    countClosed g (closeTree t) = (treeHashes t).count g
  | g, .mk h f vf cs => by
    have := closeForest_countClosed g cs
    simp [closeTree, treeHashes, countClosed, List.countP_cons, List.count_cons,
      Ev.isClosed, Ev.pipe] at this ⊢
    omega
/-- Closing a forest delivers one close per occurrence of a pipe hash. -/
theorem closeForest_countClosed : ∀ (g : String) (cs : PForest),
    countClosed g (closeForest cs) = (forestHashes cs).count g
  | g, .nil => by simp [closeForest, forestHashes, countClosed]
  | g, .cons t ts => by
    have h1 := closeTree_countClosed g t
    have h2 := closeForest_countClosed g ts
    simp [closeForest, forestHashes, countClosed, List.countP_append,
      List.count_append] at h1 h2 ⊢
    omega
end

mutual
/-- Every event of a branch send happens at a pipe of that branch. -/
theorem flowSend_pipes : ∀ (t : PTree) (p : PyObj) (e : Ev),
    e ∈ (flowSend t p).1 → e.pipe ∈ treeHashes t
  | .mk h f vf cs, p, e => by
    intro he
    simp only [treeHashes, List.mem_cons]
    simp only [flowSend] at he
    split at he
    · cases hr : retagPacket h (f (deepcopy p)) with
      | error e2 =>
        simp only [hr] at he
        simp at he
        simp [he, Ev.pipe]
      | ok q =>
        simp only [hr] at he
        cases hv : vf q with
        | error e2 =>
          simp only [hv] at he
          simp at he
          simp [he, Ev.pipe]
        | ok u =>
          simp only [hv] at he
          simp only [List.mem_cons] at he
          rcases he with rfl | he2
          · simp [Ev.pipe]
          · exact Or.inr (sendForest_pipes cs q e he2)
    · simp only [List.mem_cons] at he
      rcases he with rfl | he2
      · simp [Ev.pipe]
      · exact Or.inr (sendForest_pipes cs (f (deepcopy p)) e he2)
/-- Every event of the forwarding loop happens at a pipe of the forest. -/
theorem sendForest_pipes : ∀ (cs : PForest) (q : PyObj) (e : Ev),
    e ∈ (sendForest cs q).1 → e.pipe ∈ forestHashes cs
  | .nil, q, e => by
    intro he
    simp [sendForest] at he
  | .cons c cs, q, e => by
    intro he
    simp only [forestHashes, List.mem_append]
    simp only [sendForest] at he
    cases hf : flowSend c q with
    | mk evs err =>
      rw [hf] at he
      cases err with
      | none =>
        simp only [List.mem_append] at he
        rcases he with h1 | h2
        · exact Or.inl (flowSend_pipes c q e (hf ▸ h1))
        · exact Or.inr (sendForest_pipes cs q e h2)
      | some e2 =>
        exact Or.inl (flowSend_pipes c q e (hf ▸ he))
end

/-- When the forwarding loop completes without an exception, its trace is
exactly the concatenation of the complete sub-traces of the downstream
branches, in declared order, and every branch completed normally. -/
theorem sendForest_ok : ∀ (cs : PForest) (q : PyObj),
    (sendForest cs q).2 = none →
    (sendForest cs q).1 =
      ((forestToList cs).map fun c => (flowSend c q).1).flatten ∧
    ∀ c ∈ forestToList cs, (flowSend c q).2 = none
  | .nil, q, _ => by simp [sendForest, forestToList]
  | .cons c cs, q, hok => by
    simp only [sendForest] at hok ⊢
    cases hf : flowSend c q with
    | mk evs err =>
      rw [hf] at hok
      cases err with
      | some e => simp at hok
      | none =>
        simp only at hok
        have ih := sendForest_ok cs q hok
        simp only [forestToList, List.map_cons, List.flatten_cons, List.mem_cons]
        constructor
        · rw [ih.1, hf]
        · intro c2 hc2
          rcases hc2 with rfl | hc2
          · rw [hf]
          · exact ih.2 c2 hc2

/-- When the source loop runs to exhaustion without an exception, its
trace is the per-payload forwarding traces in production order followed by
the closing trace. -/
theorem sourceRun_ok : ∀ (h : String) (vf : PyObj → Except PyErr Unit)
    (cs : PForest) (prods : List PyObj),
    (sourceRun h vf (some cs) prods).2 = none →
    (sourceRun h vf (some cs) prods).1 =
      (prods.map fun p => (sendForest cs (tagPacket h p)).1).flatten
        ++ closeForest cs
  | h, vf, cs, [], _ => by simp [sourceRun]
  | h, vf, cs, p :: ps, hok => by
    simp only [sourceRun] at hok ⊢
    cases hv : vf (tagPacket h p) with
    | error e => rw [hv] at hok; simp at hok
    | ok u =>
      rw [hv] at hok
      simp only at hok ⊢
      cases hs : sendForest cs (tagPacket h p) with
      | mk evs err =>
        rw [hs] at hok
        cases err with
        | some e => simp at hok
        | none =>
          have hok2 : (sourceRun h vf (some cs) ps).2 = none := hok
          have ih := sourceRun_ok h vf cs ps hok2
          show evs ++ (sourceRun h vf (some cs) ps).1 =
            (List.map (fun p => (sendForest cs (tagPacket h p)).1)
              (p :: ps)).flatten ++ closeForest cs
          rw [List.map_cons, List.flatten_cons, hs]
          simp [ih, List.append_assoc]

/-- Left cancellation of string concatenation. -/
theorem sapp_cancel_left (a x y : String) (h : a ++ x = a ++ y) : x = y := by
  apply String.ext
  have hd := congrArg String.data h
  simp only [String.data_append] at hd
  exact List.append_cancel_left hd

/-- Right cancellation of string concatenation. -/
theorem sapp_cancel_right (b x y : String) (h : x ++ b = y ++ b) : x = y := by
  apply String.ext
  have hd := congrArg String.data h
  simp only [String.data_append] at hd
  exact List.append_cancel_right hd

/-- The separator-join of a list with a distinguished element is that
element wrapped in a fixed prefix and suffix determined by the
surrounding elements. -/
theorem joinSep_shape (sep : String) (pre post : List String) :
    ∃ A B, ∀ x, joinSep sep (pre ++ x :: post) = A ++ (x ++ B) := by
  induction pre with
  | nil =>
    cases post with
    | nil =>
      refine ⟨"", "", fun x => ?_⟩
      show joinSep sep [x] = "" ++ (x ++ "")
      simp [joinSep, String.append_empty, String.empty_append]
    | cons y ys =>
      refine ⟨"", sep ++ joinSep sep (y :: ys), fun x => ?_⟩
      show joinSep sep (x :: y :: ys) = "" ++ (x ++ (sep ++ joinSep sep (y :: ys)))
      rw [String.empty_append]
      show x ++ sep ++ joinSep sep (y :: ys) = x ++ (sep ++ joinSep sep (y :: ys))
      exact String.append_assoc x sep (joinSep sep (y :: ys))
  | cons p pre ih =>
    obtain ⟨A, B, hAB⟩ := ih
    refine ⟨p ++ sep ++ A, B, fun x => ?_⟩
    have hcons : ∃ a as, pre ++ x :: post = a :: as := by
      cases pre with
      | nil => exact ⟨x, post, rfl⟩
      | cons q qs => exact ⟨q, qs ++ x :: post, rfl⟩
    obtain ⟨a, as, hl⟩ := hcons
    calc joinSep sep ((p :: pre) ++ x :: post)
        = joinSep sep (p :: a :: as) := by rw [List.cons_append, hl]
      _ = p ++ sep ++ joinSep sep (a :: as) := rfl
      _ = p ++ sep ++ joinSep sep (pre ++ x :: post) := by rw [hl]
      _ = p ++ sep ++ (A ++ (x ++ B)) := by rw [hAB x]
      _ = p ++ sep ++ A ++ (x ++ B) := by
            rw [String.append_assoc (p ++ sep) A (x ++ B)]

/-- Claim C2 counterexample: two instances of the same class whose single
constructor parameter cf holds the tuple (8, 12) in one and the list
8, 12 in the other are different instances, yet json.dumps serializes
tuples and lists identically, so to_hash hashes the identical format
string and returns the identical digest, whatever digest function is
used; exhibited here with the identity digest on the hash input. -/
theorem to_hash_tuple_list_collision :
    instTupleCf.params ≠ instListCf.params ∧
    fmt_str instTupleCf = fmt_str instListCf ∧
    to_hashWith id instTupleCf = to_hashWith id instListCf := by
  refine ⟨?_, rfl, rfl⟩
  intro hcontra
  simp [instTupleCf, instListCf] at hcontra

/-- Claim C2 (amended): with the digest function abstracted, to_hash is
determined by the implementing class and the parameter values - equal
parameters give equal digests on every call; and when the two instances
of the same class differ in the value of one parameter in a way visible
to the canonical JSON serialization, the hash inputs differ, so any
injective digest function separates them (tuple-valued and list-valued
parameters with equal elements serialize identically and are not
separated, per the counterexample). -/
theorem to_hash_determinism_and_distinctness
    (H : String → String) (i1 i2 : PipeInst)
    (pre post : List (String × PyVal)) (k : String) (v1 v2 : PyVal)
    (hmod : i1.module = i2.module) (hcls : i1.cls = i2.cls) :
    (i1.params = i2.params → to_hashWith H i1 = to_hashWith H i2) ∧
    (Function.Injective H →
      sortParams i1.params = pre ++ (k, v1) :: post →
      sortParams i2.params = pre ++ (k, v2) :: post →
      serVal v1 ≠ serVal v2 →
      to_hashWith H i1 ≠ to_hashWith H i2) := by
  constructor
  · intro hp
    simp [to_hashWith, fmt_str, to_JSON, hmod, hcls, hp]
  · intro hinj h1 h2 hne heq
    apply hne
    have hfmt : fmt_str i1 = fmt_str i2 := hinj heq
    unfold fmt_str to_JSON at hfmt
    rw [h1, h2, hmod, hcls] at hfmt
    obtain ⟨A, B, hAB⟩ := joinSep_shape ", " (pre.map serEntry) (post.map serEntry)
    simp only [List.map_append, List.map_cons] at hfmt
    rw [hAB (serEntry (k, v1)), hAB (serEntry (k, v2))] at hfmt
    simp only [String.append_assoc] at hfmt
    have e1 := sapp_cancel_left _ _ _ hfmt
    have e2 := sapp_cancel_left _ _ _ e1
    have e3 := sapp_cancel_left _ _ _ e2
    have e4 := sapp_cancel_left _ _ _ e3
    have e5 := sapp_cancel_left _ _ _ e4
    have e6 := sapp_cancel_left _ _ _ e5
    have e7 := sapp_cancel_right _ _ _ e6
    unfold serEntry at e7
    simp only [String.append_assoc] at e7
    exact sapp_cancel_left _ _ _ (sapp_cancel_left _ _ _ e7)

/-- Witness for claim C2: the identity digest is injective, and the
theorem separates alpha = 1 from alpha = 2 while equating an instance
with itself. -/
theorem to_hash_determinism_and_distinctness_witness :
    to_hashWith id wAlpha1 ≠ to_hashWith id wAlpha2 ∧
    to_hashWith id wAlpha1 = to_hashWith id wAlpha1 :=
  ⟨(to_hash_determinism_and_distinctness id wAlpha1 wAlpha2 [] []
      "alpha" (.vInt 1) (.vInt 2) rfl rfl).2
      Function.injective_id rfl rfl (by decide),
   (to_hash_determinism_and_distinctness id wAlpha1 wAlpha1 [] []
      "alpha" (.vInt 1) (.vInt 1) rfl rfl).1 rfl⟩

/-- Claim C6 counterexample: the zero-key envelope is a packet whose top
level does not contain exactly one key, yet the Logger verifier accepts
it without any error, because the verifiers only reject more than one
key. -/
theorem logger_verify_accepts_empty_envelope :
    loggerVerify (.dict []) = .ok () ∧ (pyKeys (.dict [])).length ≠ 1 :=
  ⟨rfl, by decide⟩

/-- Claim C6 (amended): every verifier rejects a packet with more than
one top-level key with the structured ValueError; but the single-key
requirement is only enforced from above: the Logger verifier accepts a
zero-key envelope outright, and the Interface verifier rejects it with an
unstructured IndexError from keys()[0] rather than a structured error. -/
theorem verify_single_key_boundary (kvs : List (String × PyObj))
    (hk : 1 < kvs.length) :
    loggerVerify (.dict kvs) = .error (.valueError
      "signal_packet base-level should contain only the pipe hash identifier as key") ∧
    interfaceVerify (.dict kvs) = .error (.valueError
      "signal_packet base-level should contain only the pipe hash identifier as key") ∧
    loggerVerify (.dict []) = .ok () ∧
    interfaceVerify (.dict []) = .error .indexError := by
  have hlen : 1 < (pyKeys (.dict kvs)).length := by
    simpa [pyKeys] using hk
  refine ⟨?_, ?_, rfl, rfl⟩
  · simp [loggerVerify, check_type_dict, hlen, Bind.bind, Except.bind,
      throw, throwThe, MonadExceptOf.throw]
  · simp [interfaceVerify, check_type_dict, hlen, Bind.bind, Except.bind,
      throw, throwThe, MonadExceptOf.throw]

/-- Witness for claim C6 at a concrete two-key packet. -/
theorem verify_single_key_boundary_witness :
    1 < ([("h1", PyObj.pynone), ("h2", PyObj.pynone)] :
        List (String × PyObj)).length ∧
    loggerVerify (.dict [("h1", .pynone), ("h2", .pynone)]) =
      .error (.valueError
        "signal_packet base-level should contain only the pipe hash identifier as key") :=
  ⟨by decide,
   (verify_single_key_boundary [("h1", .pynone), ("h2", .pynone)]
     (by decide)).1⟩

/-- Claim C1 (code evaluation at the failing input): a linked flow pipe A
whose transform yields None, receiving any packet, still resumes its
downstream sink S with the falsy result - the trace contains the delivery
of None to S and no error is raised - because the forwarding loop of
apply_pipe_as_flow runs outside the truthiness guard.  The claim and the
spec say the packet is dropped with no forward. -/
theorem falsy_transform_forwarded_eval :
    flowSend droppingNode samplePacket =
      ([.send "A" samplePacket, .send "S" .pynone], none) ∧
    (flowSend droppingNode samplePacket).1.length = 2 :=
  ⟨rfl, rfl⟩

/-- Claim C4 (code evaluation at the failing input): linking any truthy
downstream to a logger pipe (here a Console instance) raises
NotImplementedError from BasePipe.get_valid_link - LoggerPipe only
defines the dead method get_valid_pipe - instead of the PipeLinkError the
claim and spec prescribe for a terminal role. -/
theorem logger_link_not_implemented_eval :
    linkRun .console [some .console] =
      ([], some (.notImplementedError
        "Must return list of pipe types the current pipe type can connect to")) ∧
    isPipeLinkErr (.notImplementedError
      "Must return list of pipe types the current pipe type can connect to") = false ∧
    linkRun .interfacePipe [some .basePipe] =
      ([], some (.pipeLinkError
        "must be one of the valid downstream pipe types")) :=
  ⟨rfl, rfl, rfl⟩

/-- Claim C10: link() silently skips every falsy downstream entry - the
stored handles and the raised error are those of the list with the falsy
entries removed, so no validation happens for them and no handle is
stored - and in particular a downstream list holding only the None
terminal marker yields an empty handle list and no error, for every
upstream class. -/
theorem link_skips_falsy_entries :
    (∀ (up : PClass) (downs : List (Option PClass)),
      linkRun up downs = linkRun up (downs.filter Option.isSome)) ∧
    ∀ up : PClass, linkRun up [none] = ([], none) := by
  constructor
  · intro up downs
    induction downs with
    | nil => rfl
    | cons d rest ih =>
      cases d with
      | none => simpa [linkRun, List.filter] using ih
      | some c =>
        simp only [linkRun, List.filter, Option.isSome]
        cases get_valid_link up with
        | error e => rfl
        | ok valid =>
          simp only
          split
          · cases startFlowHandle c with
            | error e => rfl
            | ok hdl => simp only [ih]
          · rfl
  · intro up
    rfl

/-- Claim C7 counterexample: an unlinked source whose production is
already exhausted does not raise PipeLinkError - the missing link is only
detected by the close loop, which raises the plain AttributeError for the
unset downstream_pipe_flow attribute. -/
theorem unlinked_source_empty_production_attribute_error :
    sourceRun "SRC" alwaysOkVerify none [] =
      ([], some (.attributeError "downstream_pipe_flow")) ∧
    isPipeLinkErr (.attributeError "downstream_pipe_flow") = false :=
  ⟨rfl, rfl⟩

/-- Claim C7 (amended): an unlinked flow pipe resumed with a packet
raises PipeLinkError after recording only its own resumption - nothing is
forwarded - provided the transform result is falsy or passes retag and
verification (an earlier retag or verification failure raises that error
instead); and an unlinked source raises PipeLinkError before forwarding
anything provided it produces at least one payload whose tagged envelope
verifies - whereas with an empty production the failure surfaces as a
plain AttributeError, per the counterexample. -/
theorem unlinked_loops_raise_link_error
    (h : String) (f : PyObj → PyObj) (vf : PyObj → Except PyErr Unit)
    (p : PyObj) (ps : List PyObj)
    (hflow : truthy (f (deepcopy p)) = false ∨
      ∃ q, retagPacket h (f (deepcopy p)) = .ok q ∧ vf q = .ok ())
    (hsrc : vf (tagPacket h p) = .ok ()) :
    flowResumeUnlinked h f vf p = ([.send h p], some (.pipeLinkError
      "must link to downstream pipe using link() method")) ∧
    sourceRun h vf none (p :: ps) = ([], some (.pipeLinkError
      "must link to downstream pipe using link() method")) := by
  constructor
  · unfold flowResumeUnlinked
    by_cases ht : truthy (f (deepcopy p)) = true
    · rcases hflow with hfalse | ⟨q, hr, hv⟩
      · rw [ht] at hfalse; cases hfalse
      · simp [ht, hr, hv]
    · simp [ht]
  · simp [sourceRun, hsrc]

/-- Witness for claim C7: a concrete unlinked flow pipe and a concrete
unlinked source with one payload. -/
theorem unlinked_loops_raise_link_error_witness :
    (truthy ((fun _ => PyObj.pynone) (deepcopy samplePacket)) = false ∨
      ∃ q, retagPacket "U" ((fun _ => PyObj.pynone) (deepcopy samplePacket)) = .ok q ∧
        alwaysOkVerify q = .ok ()) ∧
    alwaysOkVerify (tagPacket "U" samplePacket) = .ok () ∧
    flowResumeUnlinked "U" (fun _ => .pynone) alwaysOkVerify samplePacket =
      ([.send "U" samplePacket], some (.pipeLinkError
        "must link to downstream pipe using link() method")) ∧
    sourceRun "U" alwaysOkVerify none [samplePacket] =
      ([], some (.pipeLinkError
        "must link to downstream pipe using link() method")) := by
  have hw := unlinked_loops_raise_link_error "U" (fun _ => .pynone)
    alwaysOkVerify samplePacket [] (Or.inl rfl) rfl
  exact ⟨Or.inl rfl, rfl, hw.1, hw.2⟩

/-- In a run that exhausts its production normally, every per-payload
forwarding pass completed without an exception. -/
theorem sourceRun_ok_each : ∀ (h : String) (vf : PyObj → Except PyErr Unit)
    (cs : PForest) (prods : List PyObj),
    (sourceRun h vf (some cs) prods).2 = none →
    ∀ p ∈ prods, (sendForest cs (tagPacket h p)).2 = none
  | h, vf, cs, [], _ => by simp
  | h, vf, cs, p :: ps, hok => by
    simp only [sourceRun] at hok
    cases hv : vf (tagPacket h p) with
    | error e => rw [hv] at hok; simp at hok
    | ok u =>
      rw [hv] at hok
      simp only at hok
      cases hs : sendForest cs (tagPacket h p) with
      | mk evs err =>
        rw [hs] at hok
        cases err with
        | some e => simp at hok
        | none =>
          intro q hq
          rcases List.mem_cons.mp hq with rfl | hq2
          · rw [hs]
          · exact sourceRun_ok_each h vf cs ps hok q hq2

/-- Claim C3: in a normally terminating run, the global trace is the
per-payload blocks in production order, each payload block being the
concatenation, in declared link order, of the complete sub-trace of each
downstream branch; and every event of a branch sub-trace happens at a
pipe of that branch, so for two sibling branches every event of the first
branch (including all of its descendants) precedes every event of the
second, and sibling sub-trees never interleave. -/
theorem fanout_depth_first_ordered (h : String)
    (vf : PyObj → Except PyErr Unit) (cs : PForest) (prods : List PyObj)
    (hok : (sourceRun h vf (some cs) prods).2 = none) :
    (sourceRun h vf (some cs) prods).1 =
      (prods.map fun p =>
        ((forestToList cs).map fun c =>
          (flowSend c (tagPacket h p)).1).flatten).flatten
      ++ closeForest cs ∧
    ∀ (t : PTree) (q : PyObj), ∀ e ∈ (flowSend t q).1, e.pipe ∈ treeHashes t := by
  refine ⟨?_, fun t q e he => flowSend_pipes t q e he⟩
  rw [sourceRun_ok h vf cs prods hok]
  have heach := sourceRun_ok_each h vf cs prods hok
  congr 1
  apply congrArg List.flatten
  apply List.map_congr_left
  intro p hp
  exact (sendForest_ok cs (tagPacket h p) (heach p hp)).1

/-- Witness for claim C3: a source with two sink branches and two
payloads runs to completion and its trace decomposes as stated. -/
theorem fanout_depth_first_ordered_witness :
    (sourceRun "SRC" alwaysOkVerify (some twoSinks) [payload1, payload2]).2 = none ∧
    ((sourceRun "SRC" alwaysOkVerify (some twoSinks) [payload1, payload2]).1 =
      ([payload1, payload2].map fun p =>
        ((forestToList twoSinks).map fun c =>
          (flowSend c (tagPacket "SRC" p)).1).flatten).flatten
      ++ closeForest twoSinks ∧
    ∀ (t : PTree) (q : PyObj), ∀ e ∈ (flowSend t q).1, e.pipe ∈ treeHashes t) :=
  ⟨rfl, fanout_depth_first_ordered "SRC" alwaysOkVerify twoSinks
    [payload1, payload2] rfl⟩

/-- Claim C5: when a linked source exhausts its production normally, each
pipe of its downstream graph - in particular each of its own downstream
handles - observes exactly one close delivery in the whole run, the link
handles being pairwise distinct pipes. -/
theorem source_close_exactly_once (h : String)
    (vf : PyObj → Except PyErr Unit) (cs : PForest) (prods : List PyObj)
    (g : String) (hok : (sourceRun h vf (some cs) prods).2 = none)
    (hnd : (forestHashes cs).Nodup) (hg : g ∈ forestHashes cs) :
    countClosed g (sourceRun h vf (some cs) prods).1 = 1 := by
  rw [sourceRun_ok h vf cs prods hok]
  have hsend : ∀ prods2 : List PyObj, countClosed g
      ((prods2.map fun p => (sendForest cs (tagPacket h p)).1).flatten) = 0 := by
    intro prods2
    induction prods2 with
    | nil => rfl
    | cons p ps ih =>
      simp only [List.map_cons, List.flatten_cons]
      have h1 := sendForest_countClosed g cs (tagPacket h p)
      simp only [countClosed, List.countP_append] at ih h1 ⊢
      omega
  have hclose := closeForest_countClosed g cs
  have hone := List.count_eq_one_of_mem hnd hg
  have hsendp := hsend prods
  simp only [countClosed, List.countP_append] at hsendp hclose ⊢
  omega

/-- Witness for claim C5: in the two-sink fixture, sink A observes
exactly one close. -/
theorem source_close_exactly_once_witness :
    (sourceRun "SRC" alwaysOkVerify (some twoSinks) [payload1, payload2]).2 = none ∧
    (forestHashes twoSinks).Nodup ∧ "A" ∈ forestHashes twoSinks ∧
    countClosed "A"
      (sourceRun "SRC" alwaysOkVerify (some twoSinks) [payload1, payload2]).1 = 1 :=
  ⟨rfl, by decide, by decide,
   source_close_exactly_once "SRC" alwaysOkVerify twoSinks [payload1, payload2]
     "A" rfl (by decide) (by decide)⟩

/-- deepcopyPkt only appends fresh cells to the heap, and every address
of the copied packet lies at or beyond the old heap end. -/
theorem deepcopyPkt_cells : ∀ (p : PacketRef) (s : HStore),
    ∃ ext, (deepcopyPkt s p).1.cells = s.cells ++ ext ∧
      ∀ b ∈ (deepcopyPkt s p).2.map Prod.snd, s.cells.length ≤ b
  | [], s => by
    refine ⟨[], ?_, ?_⟩ <;> simp [deepcopyPkt]
  | (k, a) :: rest, s => by
    obtain ⟨ext, hc, hb⟩ := deepcopyPkt_cells rest ⟨s.cells ++ [readCell s a]⟩
    refine ⟨readCell s a :: ext, ?_, ?_⟩
    · simp only [deepcopyPkt, allocCell]
      rw [hc]
      simp
    · intro b hb2
      simp only [deepcopyPkt, allocCell, List.map_cons, List.mem_cons] at hb2
      rcases hb2 with rfl | hb2
      · exact Nat.le_refl _
      · have := hb b hb2
        simp at this
        omega

/-- One branch resumption leaves every pre-existing cell unchanged and
never shrinks the heap: the handler only touches the fresh copy. -/
theorem branchResume_preserves (hm : PacketRef → HStore → HStore)
    (hmok : MutatesOnlyArg hm) (s : HStore) (p : PacketRef) :
    (∀ a, a < s.cells.length →
      readCell (branchResume hm s p) a = readCell s a) ∧
    s.cells.length ≤ (branchResume hm s p).cells.length := by
  obtain ⟨ext, hc, hb⟩ := deepcopyPkt_cells p s
  unfold branchResume
  rcases hd : deepcopyPkt s p with ⟨s1, pcopy⟩
  rw [hd] at hc hb
  simp only at hc hb ⊢
  have hlen1 : s1.cells.length = s.cells.length + ext.length := by
    rw [hc]; simp
  constructor
  · intro a ha
    have h1 : readCell s1 a = readCell s a := by
      unfold readCell
      rw [hc]
      exact List.getD_append _ _ _ _ ha
    have h2 : a ∉ pcopy.map Prod.snd := by
      intro hmem
      have := hb a hmem
      omega
    rw [(hmok pcopy s1).1 a h2, h1]
  · have hlen2 := (hmok pcopy s1).2
    omega

/-- After any prefix of the fan-out has run, the cells of the inbound
packet still hold their original values and remain in bounds. -/
theorem fanout_prefix_preserves (p : PacketRef) :
    ∀ (pre : List (PacketRef → HStore → HStore)) (s : HStore),
    (∀ hm ∈ pre, MutatesOnlyArg hm) →
    (∀ a ∈ p.map Prod.snd, a < s.cells.length) →
    ∀ a ∈ p.map Prod.snd,
      readCell (fanoutHeap pre s p) a = readCell s a ∧
      a < (fanoutHeap pre s p).cells.length
  | [], s, _, hb, a, ha => ⟨rfl, hb a ha⟩
  | hm :: rest, s, hf, hb, a, ha => by
    have hm1 := hf hm (List.mem_cons_self _ _)
    have hbr := branchResume_preserves hm hm1 s p
    have hb2 : ∀ a2 ∈ p.map Prod.snd,
        a2 < (branchResume hm s p).cells.length :=
      fun a2 ha2 => Nat.lt_of_lt_of_le (hb a2 ha2) hbr.2
    have ih := fanout_prefix_preserves p rest (branchResume hm s p)
      (fun hm2 hmem => hf hm2 (List.mem_cons_of_mem _ hmem)) hb2 a ha
    have hstep : fanoutHeap (hm :: rest) s p =
        fanoutHeap rest (branchResume hm s p) p := rfl
    refine ⟨?_, ?_⟩
    · rw [hstep, ih.1, hbr.1 a (hb a ha)]
    · rw [hstep]; exact ih.2

/-- Claim C8: because every branch resumption applies the transform to a
deep copy of the inbound packet, after any prefix of the sibling branches
has run - each handler mutating, in place, only cells reachable from its
own (copied) argument - the inbound packet cells still hold their
original values.  So the inbound packet is left unchanged by the whole
fan-out (take the full list as prefix) and every later sibling reads the
original payload, never a mutation made by an earlier branch. -/
theorem deepcopy_branch_isolation
    (hms : List (PacketRef → HStore → HStore)) (s : HStore) (p : PacketRef)
    (hb : ∀ a ∈ p.map Prod.snd, a < s.cells.length)
    (hf : ∀ hm ∈ hms, MutatesOnlyArg hm) :
    ∀ pre suf, hms = pre ++ suf →
      (∀ a ∈ p.map Prod.snd,
        readCell (fanoutHeap pre s p) a = readCell s a) ∧
      (p.map fun kv => readCell (fanoutHeap pre s p) kv.2) =
        (p.map fun kv => readCell s kv.2) := by
  intro pre suf hsplit
  have hfp : ∀ hm ∈ pre, MutatesOnlyArg hm := fun hm hmem =>
    hf hm (hsplit ▸ List.mem_append_left suf hmem)
  have main := fanout_prefix_preserves p pre s hfp hb
  refine ⟨fun a ha => (main a ha).1, ?_⟩
  apply List.map_congr_left
  intro kv hkv
  exact (main kv.2 (List.mem_map_of_mem Prod.snd hkv)).1

/-- Witness for claim C8 with a one-cell heap, a one-field packet and one
branch handler. -/
theorem deepcopy_branch_isolation_witness :
    (∀ a ∈ wPkt.map Prod.snd, a < wStore.cells.length) ∧
    ((∀ a ∈ wPkt.map Prod.snd,
        readCell (fanoutHeap [idHandler] wStore wPkt) a = readCell wStore a) ∧
      (wPkt.map fun kv => readCell (fanoutHeap [idHandler] wStore wPkt) kv.2) =
        (wPkt.map fun kv => readCell wStore kv.2)) := by
  have hf : ∀ hm ∈ [idHandler], MutatesOnlyArg hm := by
    intro hm hmem
    rcases List.mem_singleton.mp hmem with rfl
    exact fun q s => ⟨fun a _ => rfl, rfl⟩
  exact ⟨by decide,
    deepcopy_branch_isolation [idHandler] wStore wPkt (by decide) hf
      [idHandler] [] rfl⟩

/-- The inner log loop records exactly the downstream names whose
instance is not the None marker, one record each, in order. -/
theorem edgeRecords_eq (H : String → String) (date : String)
    (pipes : String → Option PipeInst) (u : PipeInst) : ∀ vs : List String,
    edgeRecords H date pipes u vs =
      (vs.filter (fun v => (pipes v).isSome)).map
        (fun v => mkRecord H date v u ((pipes v).getD defaultInst))
  | [] => rfl
  | v :: rest => by
    simp only [edgeRecords, List.filter]
    cases hv : pipes v with
    | none => simpa [hv] using edgeRecords_eq H date pipes u rest
    | some d => simpa [hv] using edgeRecords_eq H date pipes u rest

/-- The accumulated lineage log is one record per declared edge, carrying
the link date, the downstream name, the downstream type identifier, the
downstream parameter snapshot and the two endpoint identity hashes. -/
theorem buildLog_eq (H : String → String) (date : String) :
    ∀ (topo : List (String × List String)) (pipes : String → Option PipeInst),
    (∀ e ∈ topo, (pipes e.1).isSome) →
    buildLog H date topo pipes =
      (declaredEdges topo pipes).map (fun ed =>
        mkRecord H date ed.2 ((pipes ed.1).getD defaultInst)
          ((pipes ed.2).getD defaultInst))
  | [], _, _ => rfl
  | (us, vs) :: rest, pipes, hup => by
    have hu := hup (us, vs) (List.mem_cons_self _ _)
    cases hpu : pipes us with
    | none => rw [hpu] at hu; simp at hu
    | some u =>
      have ih := buildLog_eq H date rest pipes
        (fun e he => hup e (List.mem_cons_of_mem _ he))
      simp only [buildLog, declaredEdges, List.map_cons, List.flatten_cons,
        hpu, List.map_append]
      rw [edgeRecords_eq H date pipes u vs]
      rw [ih]
      simp only [declaredEdges, List.map_map]
      congr 1
      apply List.map_congr_left
      intro v hv
      simp [Function.comp, hpu]

/-- Claim C9: the orchestrator accumulates, at graph-build time, exactly
one lineage record per declared topology edge (edges to the None terminal
marker are not edges), each carrying the timestamp, downstream name,
downstream type identifier, downstream parameter snapshot, upstream
identity hash and downstream identity hash; and when the source loop
returns normally, the accumulated log is persisted exactly once, after
all source events. -/
theorem lineage_records_and_single_persist (H : String → String)
    (date : String) (topo : List (String × List String))
    (pipes : String → Option PipeInst) (log : List LineageRecord)
    (srcEvs : List Ev)
    (hup : ∀ e ∈ topo, (pipes e.1).isSome) :
    buildLog H date topo pipes =
      (declaredEdges topo pipes).map (fun ed =>
        mkRecord H date ed.2 ((pipes ed.1).getD defaultInst)
          ((pipes ed.2).getD defaultInst)) ∧
    (buildLog H date topo pipes).length = (declaredEdges topo pipes).length ∧
    countPersist (startPipeline (srcEvs, none) log) = 1 ∧
    startPipeline (srcEvs, none) log = srcEvs.map .src ++ [.persist log] := by
  have hb := buildLog_eq H date topo pipes hup
  refine ⟨hb, by rw [hb]; simp, ?_, rfl⟩
  simp only [startPipeline, countPersist, List.countP_append]
  have hsrc : List.countP
      (fun e => match e with | .persist _ => true | _ => false)
      (srcEvs.map RunEv.src) = 0 := by
    induction srcEvs with
    | nil => rfl
    | cons e es ih => simp [List.countP_cons, ih]
  rw [hsrc]
  rfl

/-- Witness for claim C9: the sample two-pipe configuration - source
feeding a console sink, sink terminating at None - yields a one-record
log and a single persistence. -/
theorem lineage_records_and_single_persist_witness :
    (∀ e ∈ sampleTopo, (samplePipes e.1).isSome) ∧
    ((buildLog id "2016-03-28" sampleTopo samplePipes).length =
      (declaredEdges sampleTopo samplePipes).length ∧
    countPersist (startPipeline ([], none) []) = 1) := by
  have hw := lineage_records_and_single_persist id "2016-03-28" sampleTopo
    samplePipes [] [] (by decide)
  exact ⟨by decide, hw.2.1, hw.2.2.1⟩

end Dyne
